import Mathlib

set_option maxHeartbeats 2000000
set_option maxRecDepth 8000

/-!
Shallow embedding of `scripts/decision_makers_finder.py` (Decision Makers
Finder).  Python strings are modelled as lists of Unicode code points
(`List Char`), which matches Python's sequence-of-code-points semantics for
`str`.  Network calls are modelled by inductive outcome types; the JSON
parsing done by Python's `json.loads` is modelled by an executable
recursive-descent parser over a `Json` value type.
-/

abbrev PyStr := List Char

/-- Code points of a Lean string literal; used to transcribe the Python
source's string literals into the `List Char` model. -/
def pys (s : String) : PyStr := s.toList

/-- Whitespace test used by Python's `str.strip()` (the ASCII whitespace
characters; `str.strip` additionally strips some rarer Unicode whitespace
code points, which never occur in this program's data). -/
def isPySpace (c : Char) : Bool :=
  decide (c = ' ' ∨ c = '\t' ∨ c = '\n' ∨ c = '\r' ∨ c = '\x0b' ∨ c = '\x0c')

/-- Python `s.strip()`: remove leading and trailing whitespace. -/
def pyStrip (s : PyStr) : PyStr :=
  ((s.dropWhile isPySpace).reverse.dropWhile isPySpace).reverse

/-- Python `sub in s` substring containment test. -/
def pyIn (sub s : PyStr) : Bool := decide (sub <:+: s)

/-- `'\n'` does not occur in `s`. -/
def noNl (s : PyStr) : Bool := decide ('\n' ∉ s)

/-- Split at the first occurrence of `sep` (nonempty): `some (before, after)`,
or `none` when `sep` does not occur.  Fuelled; `s.length + 1` fuel suffices
since each step consumes one character. -/
def splitFirstAux (sep : PyStr) : Nat → PyStr → Option (PyStr × PyStr)
  | 0, _ => none
  | fuel+1, s =>
    if sep.isPrefixOf s then some ([], s.drop sep.length)
    else
      match s with
      | [] => none
      | c :: cs => (splitFirstAux sep fuel cs).map (fun p => (c :: p.1, p.2))

def pySplitAux (sep : PyStr) : Nat → PyStr → List PyStr
  | 0, s => [s]
  | fuel+1, s =>
    match splitFirstAux sep (s.length + 1) s with
    | none => [s]
    | some (a, b) => a :: pySplitAux sep fuel b

/-- Python `s.split(sep)` for a nonempty separator: split at every
non-overlapping occurrence of `sep`, scanning left to right.  The source
only splits on the fence markers, which are nonempty. -/
def pySplit (sep s : PyStr) : List PyStr :=
  pySplitAux sep (s.length + 1) s

/-- Python `sep.join(parts)`. -/
def pyJoin (sep : PyStr) : List PyStr → PyStr
  | [] => []
  | [x] => x
  | x :: y :: t => x ++ sep ++ pyJoin sep (y :: t)

/-- One pass of Python `template.format(domain=..., company_name=...)` for the
two replacement fields occurring in the source's query templates.  The scan is
single-pass, as in Python: replacement values are not re-scanned.  Fuelled on
the template length. -/
def pyFormatDMAux (domain company_name : PyStr) : Nat → PyStr → PyStr
  | _, [] => []
  | 0, s => s
  | fuel+1, c :: cs =>
    if (pys "{domain}").isPrefixOf (c :: cs) then
      domain ++ pyFormatDMAux domain company_name fuel ((c :: cs).drop 8)
    else if (pys "{company_name}").isPrefixOf (c :: cs) then
      company_name ++ pyFormatDMAux domain company_name fuel ((c :: cs).drop 14)
    else
      c :: pyFormatDMAux domain company_name fuel cs

def pyFormatDM (domain company_name t : PyStr) : PyStr :=
  pyFormatDMAux domain company_name t.length t

/-- The lines of a string, splitting at every `'\n'` (as Python
`s.split('\n')`). -/
def linesC : PyStr → List PyStr
  | [] => [[]]
  | c :: cs =>
    if c = '\n' then [] :: linesC cs
    else
      match linesC cs with
      | [] => [[c]]
      | l :: ls => (c :: l) :: ls

/-- JSON values as produced by Python's `json.loads`.  Numbers are kept as
`mantissa * 10 ^ exponent` (their numeric value is never inspected by the
program). -/
inductive Json where
  | null
  | bool (b : Bool)
  | num (mantissa : Int) (exponent : Int)
  | str (s : PyStr)
  | arr (items : List Json)
  | obj (fields : List (PyStr × Json))

/-- Lookup in a Python dict modelled as an association list with unique keys
(the parser and `dictSet` maintain uniqueness). -/
def dictFind : List (PyStr × Json) → PyStr → Option Json
  | [], _ => none
  | (k', v') :: t, k => if k' = k then some v' else dictFind t k

/-- Python `d[k] = v`: update in place when the key exists (keeping its
position), otherwise append at the end — Python dict insertion semantics. -/
def dictSet : List (PyStr × Json) → PyStr → Json → List (PyStr × Json)
  | [], k, v => [(k, v)]
  | (k', v') :: t, k, v => if k' = k then (k, v) :: t else (k', v') :: dictSet t k v

/-- Python `k in d`. -/
def dictContains (fs : List (PyStr × Json)) (k : PyStr) : Bool :=
  (dictFind fs k).isSome

/-- Python `d.get(k, default)`. -/
def dictFindD (fs : List (PyStr × Json)) (k : PyStr) (d : Json) : Json :=
  (dictFind fs k).getD d

/-- Build a Python dict from parsed key/value pairs: last value wins for a
duplicated key, first-insertion position is kept (Python `json.loads`
object semantics). -/
def pyDictOfPairs (ps : List (PyStr × Json)) : List (PyStr × Json) :=
  ps.foldl (fun d kv => dictSet d kv.1 kv.2) []

/-! ### A model of Python `json.loads` -/

/-- JSON whitespace (RFC 8259, as accepted by Python's `json`). -/
def jWs (c : Char) : Bool :=
  decide (c = ' ' ∨ c = '\t' ∨ c = '\n' ∨ c = '\r')

def skipWs (s : PyStr) : PyStr := s.dropWhile jWs

def hexVal (c : Char) : Option Nat :=
  if c.isDigit then some (c.toNat - 48)
  else if 'a' ≤ c ∧ c ≤ 'f' then some (c.toNat - 87)
  else if 'A' ≤ c ∧ c ≤ 'F' then some (c.toNat - 55)
  else none

def digitsToNat (ds : List Char) : Nat :=
  ds.foldl (fun a c => a * 10 + (c.toNat - 48)) 0

/-- Integer part of a JSON number: `0` or a nonzero digit followed by digits
(JSON forbids redundant leading zeros, as does Python's `json`). -/
def parseIntPart : PyStr → Option (List Char × PyStr)
  | '0' :: r => some (['0'], r)
  | c :: r =>
    if c.isDigit then
      some (c :: (r.takeWhile Char.isDigit), r.dropWhile Char.isDigit)
    else none
  | [] => none

def parseFrac : PyStr → Option (List Char × PyStr)
  | '.' :: r =>
    match r.takeWhile Char.isDigit with
    | [] => none
    | ds => some (ds, r.dropWhile Char.isDigit)
  | s => some ([], s)

def parseExp : PyStr → Option (Int × PyStr)
  | c :: r =>
    if c = 'e' ∨ c = 'E' then
      let signAndRest : Int × PyStr :=
        match r with
        | '+' :: r2 => (1, r2)
        | '-' :: r2 => (-1, r2)
        | _ => (1, r)
      match signAndRest.2.takeWhile Char.isDigit with
      | [] => none
      | ds => some (signAndRest.1 * (digitsToNat ds : Int),
                    signAndRest.2.dropWhile Char.isDigit)
    else some (0, c :: r)
  | [] => some (0, [])

def parseNumFrom (neg : Bool) (s1 : PyStr) : Option (Json × PyStr) :=
  match parseIntPart s1 with
  | none => none
  | some (ids, s2) =>
    match parseFrac s2 with
    | none => none
    | some (fds, s3) =>
      match parseExp s3 with
      | none => none
      | some (ex, s4) =>
        let m : Int := (digitsToNat (ids ++ fds) : Int)
        some (Json.num (if neg then -m else m) (ex - (fds.length : Int)), s4)

def parseNum : PyStr → Option (Json × PyStr)
  | '-' :: r => parseNumFrom true r
  | s => parseNumFrom false s

/-- Body of a JSON string after the opening quote.  Control characters are
rejected (Python's strict default); the standard escapes are handled.  A
`\uXXXX` escape becomes the code point `XXXX` (surrogate-pair combination,
irrelevant to this program's data, is not modelled). -/
def parseStringBody : Nat → PyStr → Option (PyStr × PyStr)
  | 0, _ => none
  | fuel+1, s =>
    match s with
    | [] => none
    | '"' :: r => some ([], r)
    | '\\' :: e :: r =>
      let esc : Option (Char × PyStr) :=
        match e, r with
        | '"', _ => some ('"', r)
        | '\\', _ => some ('\\', r)
        | '/', _ => some ('/', r)
        | 'b', _ => some ('\x08', r)
        | 'f', _ => some ('\x0c', r)
        | 'n', _ => some ('\n', r)
        | 'r', _ => some ('\r', r)
        | 't', _ => some ('\t', r)
        | 'u', h1 :: h2 :: h3 :: h4 :: r2 =>
          match hexVal h1, hexVal h2, hexVal h3, hexVal h4 with
          | some a, some b, some c, some d =>
            some (Char.ofNat (((a * 16 + b) * 16 + c) * 16 + d), r2)
          | _, _, _, _ => none
        | _, _ => none
      match esc with
      | some (ch, r2) =>
        (parseStringBody fuel r2).map (fun p => (ch :: p.1, p.2))
      | none => none
    | c :: r =>
      if c.toNat < 32 then none
      else (parseStringBody fuel r).map (fun p => (c :: p.1, p.2))

mutual

def parseVal : Nat → PyStr → Option (Json × PyStr)
  | 0, _ => none
  | fuel+1, s =>
    match s with
    | 'n' :: 'u' :: 'l' :: 'l' :: r => some (.null, r)
    | 't' :: 'r' :: 'u' :: 'e' :: r => some (.bool true, r)
    | 'f' :: 'a' :: 'l' :: 's' :: 'e' :: r => some (.bool false, r)
    | '"' :: r => (parseStringBody fuel r).map (fun p => (.str p.1, p.2))
    | '[' :: r =>
      match skipWs r with
      | ']' :: r2 => some (.arr [], r2)
      | r1 => (parseArrItems fuel r1).map (fun p => (.arr p.1, p.2))
    | '\x7b' :: r =>
      match skipWs r with
      | '\x7d' :: r2 => some (.obj [], r2)
      | r1 => (parseObjItems fuel r1).map (fun p => (.obj (pyDictOfPairs p.1), p.2))
    | _ => parseNum s

def parseArrItems : Nat → PyStr → Option (List Json × PyStr)
  | 0, _ => none
  | fuel+1, s =>
    match parseVal fuel s with
    | none => none
    | some (v, r) =>
      match skipWs r with
      | ',' :: r2 => (parseArrItems fuel (skipWs r2)).map (fun p => (v :: p.1, p.2))
      | ']' :: r2 => some ([v], r2)
      | _ => none

def parseObjItems : Nat → PyStr → Option (List (PyStr × Json) × PyStr)
  | 0, _ => none
  | fuel+1, s =>
    match s with
    | '"' :: r =>
      match parseStringBody fuel r with
      | none => none
      | some (k, r1) =>
        match skipWs r1 with
        | ':' :: r2 =>
          match parseVal fuel (skipWs r2) with
          | none => none
          | some (v, r3) =>
            match skipWs r3 with
            | ',' :: r4 =>
              (parseObjItems fuel (skipWs r4)).map (fun p => ((k, v) :: p.1, p.2))
            | '\x7d' :: r4 => some ([(k, v)], r4)
            | _ => none
        | _ => none
    | _ => none

end

/-- Model of Python `json.loads`: parse the whole string (leading and
trailing whitespace allowed, anything else after the value is an error).
`none` models a raised `json.JSONDecodeError`.  The fuel `2 * length + 2`
is ample: every two recursion steps consume at least one character. -/
def parseJson (s : PyStr) : Option Json :=
  match parseVal (2 * s.length + 2) (skipWs s) with
  | some (v, rest) => if skipWs rest = [] then some v else none
  | none => none

/-! ### The program model (from `scripts/decision_makers_finder.py`) -/

/-- `self.search_queries` (lines 61–67). -/
def search_queries : List PyStr :=
  [pys "{domain} {company_name} CEO -zoominfo -dnb",
   pys "{domain} {company_name} Founder owner -zoominfo -dnb",
   pys "{domain} {company_name} president chairman -zoominfo -dnb",
   pys "{domain} {company_name} partner -zoominfo -dnb",
   pys "{domain} {company_name} contact email"]

/-- The payload `{"organic": [], "searchParameters": {"q": query}}` returned
by `search_serper` on any failure (lines 201 and 204). -/
def serperFallback (query : PyStr) : Json :=
  Json.obj [(pys "organic", Json.arr []),
            (pys "searchParameters", Json.obj [(pys "q", Json.str query)])]

/-- Outcome of the HTTP POST inside `search_serper`: a response with a status
code and (when the body parses as JSON) a parsed body, or a raised transport
exception.  `resp 200 none` models `response.json()` itself raising, which the
surrounding `try` also catches. -/
inductive SerperNet where
  | resp (status : Nat) (body : Option Json)
  | raised

/-- `DecisionMakersFinder.search_serper` (lines 182–204): return the parsed
body on HTTP 200, the fallback payload on any other status or any exception.
Total — it never raises to its caller. -/
def search_serper (query : PyStr) : SerperNet → Json
  | .resp 200 (some b) => b
  | .resp 200 none => serperFallback query
  | .resp _ _ => serperFallback query
  | .raised => serperFallback query

/-- `result.get(k)`-style access for a parsed JSON value.  The Python source
only ever applies `.get` to dicts here; for a non-dict Python would raise
`AttributeError` (a propagating failure, cf. claim C3) — the theorems about
the formatter restrict attention to dict-shaped results. -/
def dictFindJ (j : Json) (k : PyStr) : Option Json :=
  match j with
  | .obj fs => dictFind fs k
  | _ => none

def dictContainsJ (j : Json) (k : PyStr) : Bool :=
  match j with
  | .obj fs => dictContains fs k
  | _ => false

def getJD (j : Json) (k : PyStr) : Json :=
  (dictFindJ j k).getD Json.null

/-- Python `str()` as used by f-string interpolation of values taken from
parsed JSON.  The pipeline only renders string values (enforced by the
theorems' hypotheses); for the remaining constructors Python would render
`str()` of the corresponding Python value, approximated here. -/
def pyFStr : Json → PyStr
  | .str s => s
  | .null => pys "None"
  | .bool true => pys "True"
  | .bool false => pys "False"
  | .num m e =>
    (if m < 0 then '-' :: Nat.toDigits 10 m.natAbs else Nat.toDigits 10 m.natAbs)
      ++ (if e = 0 then [] else 'e' :: Nat.toDigits 10 e.natAbs)
  | .arr _ => pys "<list>"
  | .obj _ => pys "<dict>"

/-- `result.get('searchParameters', {}).get('q', '(No query found)')`
(line 259). -/
def queryValOf (result : Json) : Json :=
  match dictFindJ result (pys "searchParameters") with
  | some sp =>
    match dictFindJ sp (pys "q") with
    | some v => v
    | none => Json.str (pys "(No query found)")
  | none => Json.str (pys "(No query found)")

/-- `result.get('organic', [])` (line 260), as a list of hits. -/
def organicOf (result : Json) : List Json :=
  match dictFindJ result (pys "organic") with
  | some (Json.arr xs) => xs
  | some _ => []
  | none => []

/-- `'title' in item and 'link' in item and 'snippet' in item` (line 264). -/
def hitComplete (item : Json) : Bool :=
  dictContainsJ item (pys "title") && dictContainsJ item (pys "link")
    && dictContainsJ item (pys "snippet")

/-- `f"- {item['title']}\n  {item['link']}\n  {item['snippet']}"` (line 266). -/
def renderHit (item : Json) : PyStr :=
  pys "- " ++ pyFStr (getJD item (pys "title"))
    ++ pys "\n  " ++ pyFStr (getJD item (pys "link"))
    ++ pys "\n  " ++ pyFStr (getJD item (pys "snippet"))

/-- The `formatted_results` accumulation loop over `organic_results[:4]`
(lines 262–267). -/
def formattedResultsOf (organic : List Json) : List PyStr :=
  (organic.take 4).foldl
    (fun acc item => if hitComplete item then acc ++ [renderHit item] else acc) []

/-- `section = f"**Search Query:** {query}\n\n" + result_separator.join(...)`
(line 269). -/
def sectionOf (result : Json) : PyStr :=
  pys "**Search Query:** " ++ pyFStr (queryValOf result) ++ pys "\n\n"
    ++ pyJoin (pys "\n---\n") (formattedResultsOf (organicOf result))

/-- `DecisionMakersFinder.format_search_results` (lines 253–272). -/
def format_search_results (results : List Json) : PyStr :=
  pyJoin (pys "\n\n\n") (results.foldl (fun acc r => acc ++ [sectionOf r]) [])

/-- The fence-stripping step of `extract_all_contacts` (lines 303–307):
`content.split('```json')[1].split('```')[0].strip()` when a json-tagged
fence marker occurs, else the same with the bare fence marker, else the
content unchanged.  The indexing `[1]` is guarded by the containment test,
under which the split has at least two parts. -/
def stripFences (content : PyStr) : PyStr :=
  if pyIn (pys "```json") content then
    pyStrip ((pySplit (pys "```") ((pySplit (pys "```json") content).getD 1 [])).getD 0 [])
  else if pyIn (pys "```") content then
    pyStrip ((pySplit (pys "```") ((pySplit (pys "```") content).getD 1 [])).getD 0 [])
  else content

/-- Lines 303–313 of `extract_all_contacts`: strip fences, parse as JSON
(`none` = `json.JSONDecodeError`, caught: empty result), keep the value only
when it is a list. -/
def extract_response_contacts (content : PyStr) : List Json :=
  match parseJson (stripFences content) with
  | some (Json.arr xs) => xs
  | some _ => []
  | none => []

/-- Outcome of the OpenRouter HTTP call in `extract_all_contacts`:
`content c` is a 200 response whose `choices[0].message.content` is the
string `c`; `badStatus` a non-200 response; `raised` any exception caught by
the outer `except` (transport errors, malformed `choices` payloads, a
non-string `content`, ...). -/
inductive LlmNet where
  | content (c : PyStr)
  | badStatus (status : Nat)
  | raised

/-- `DecisionMakersFinder.extract_all_contacts` (lines 274–321). -/
def extract_all_contacts : LlmNet → List Json
  | .content c => extract_response_contacts c
  | .badStatus _ => []
  | .raised => []

/-- The disallowed path fragments of `_validate_linkedin_url` (lines 218–219). -/
def linkedinDisallowed : List PyStr :=
  [pys "linkedin.com/company/", pys "linkedin.com/posts/", pys "linkedin.com/pub/dir/",
   pys "linkedin.com/feed/", pys "linkedin.com/jobs/", pys "linkedin.com/school/"]

/-- `DecisionMakersFinder._validate_linkedin_url` (lines 206–223).  The
argument is a parsed-JSON value: `not url or not isinstance(url, str)` sends
every non-string and the empty string to `""`. -/
def validate_linkedin_url : Json → PyStr
  | Json.str s =>
    if s = [] then []
    else
      let url := pyStrip s
      if ¬ ((pys "linkedin.com/in/") <:+: url) then []
      else if linkedinDisallowed.any (fun d => pyIn d url) then []
      else url
  | _ => []

/-- The per-contact normalization loop body of `process_company`
(lines 243–249).  Python's `contact['domain'] = domain` raises `TypeError`
when `contact` is not a dict (the parsed reply may be a JSON array holding
non-objects); `Except.error ()` models that raised exception. -/
def normalize_contact (domain company_name : PyStr) : Json → Except Unit Json
  | Json.obj fs =>
    let fs1 := dictSet fs (pys "domain") (Json.str domain)
    let fs2 := dictSet fs1 (pys "company_name") (Json.str company_name)
    let fs3 := dictSet fs2 (pys "linkedin_url")
      (Json.str (validate_linkedin_url (dictFindD fs2 (pys "linkedin_url") (Json.str []))))
    let fs4 := if dictContains fs3 (pys "generic_email") then fs3
               else dictSet fs3 (pys "generic_email") (Json.str [])
    .ok (Json.obj fs4)
  | _ => .error ()

/-- A Python `for` loop over a list where the body may raise: the first
raised exception propagates, otherwise the per-item results are collected in
order. -/
def pyLoopMap (f : α → Except Unit β) : List α → Except Unit (List β)
  | [] => .ok []
  | x :: xs =>
    match f x with
    | .ok y =>
      match pyLoopMap f xs with
      | .ok ys => .ok (y :: ys)
      | .error e => .error e
    | .error e => .error e

/-- `DecisionMakersFinder.process_company` (lines 225–251).  The environment
is modelled by two oracles: `serper` gives the outcome of the search call for
each query, `llm` the outcome of the extraction call for each formatted
summary.  An `Except.error` is an exception escaping `process_company`. -/
def process_company (llm : PyStr → LlmNet) (serper : PyStr → SerperNet)
    (domain company_name : PyStr) : Except Unit (List Json) :=
  let queries := search_queries.map (pyFormatDM domain company_name)
  let results := queries.map (fun q => search_serper q (serper q))
  let summary := format_search_results results
  let contacts := extract_all_contacts (llm summary)
  pyLoopMap (normalize_contact domain company_name) contacts

/-- `DecisionMakersFinder.process_batch` (lines 323–337): run every company
of the batch (`asyncio.gather` re-raises the first failure and otherwise
returns results in submission order), then flatten. -/
def process_batch (llm : PyStr → LlmNet) (serper : PyStr → SerperNet)
    (companies : List (PyStr × PyStr)) : Except Unit (List Json) :=
  match pyLoopMap (fun c => process_company llm serper c.1 c.2) companies with
  | .ok results => .ok results.flatten
  | .error e => .error e

/-- `range(0, len(df), batch_size)` chunking of `run` (lines 456–457),
fuelled by the list length (each step removes at least one element since the
chunk size is positive). -/
def chunksAux (n : Nat) : Nat → List α → List (List α)
  | _, [] => []
  | 0, l => [l]
  | fuel+1, l => l.take n :: chunksAux n fuel (l.drop n)

def chunksList (n : Nat) (l : List α) : List (List α) :=
  chunksAux n l.length l

/-- The batch loop of `run` (lines 455–464): `all_results = []`, then for
each chunk extend with the batch results; a raised batch error propagates
out of `run`. -/
def runChunks (llm : PyStr → LlmNet) (serper : PyStr → SerperNet) :
    List (List (PyStr × PyStr)) → List Json → Except Unit (List Json)
  | [], acc => .ok acc
  | b :: bs, acc =>
    match process_batch llm serper b with
    | .ok results => runChunks llm serper bs (acc ++ results)
    | .error e => .error e

/-- The core of `DecisionMakersFinder.run` (lines 430–485) after input
reading: process the company list in chunks of `self.batch_size = 14`. -/
def runModel (llm : PyStr → LlmNet) (serper : PyStr → SerperNet)
    (companies : List (PyStr × PyStr)) : Except Unit (List Json) :=
  runChunks llm serper (chunksList 14 companies) []

/-! ### Observation helpers used by the claim statements -/

/-- Number of output records whose `first_name` is `"Clint"` and `last_name`
is `"Dorman"`. -/
def countClintDorman (r : Except Unit (List Json)) : Nat :=
  match r with
  | .ok l =>
    (l.filter (fun c =>
      match c with
      | Json.obj fs =>
        (match dictFind fs (pys "first_name") with
         | some (Json.str s) => decide (s = pys "Clint")
         | _ => false)
        && (match dictFind fs (pys "last_name") with
            | some (Json.str s) => decide (s = pys "Dorman")
            | _ => false)
      | _ => false)).length
  | .error _ => 0

/-- The `title` fields of the output records, in order. -/
def titlesOf (r : Except Unit (List Json)) : List PyStr :=
  match r with
  | .ok l =>
    l.filterMap (fun c =>
      match c with
      | Json.obj fs =>
        match dictFind fs (pys "title") with
        | some (Json.str s) => some s
        | _ => none
      | _ => none)
  | .error _ => []

/-- A line is a `**Search Query:**` header line. -/
def isHeaderLine (l : PyStr) : Bool :=
  (pys "**Search Query:** ").isPrefixOf l

/-- Well-formedness of one search result for the formatter theorems: the
rendered query and the rendered fields of every complete hit among the first
four are newline-free (true of real provider data; Python renders them into
single lines). -/
def wfResult (r : Json) : Bool :=
  noNl (pyFStr (queryValOf r))
    && ((organicOf r).take 4).all (fun item =>
         !(hitComplete item)
           || (noNl (pyFStr (getJD item (pys "title")))
               && noNl (pyFStr (getJD item (pys "link")))
               && noNl (pyFStr (getJD item (pys "snippet")))))

/-! ### Concrete inputs used by witnesses and counterexamples -/

/-- A complete search hit (all of title, link, snippet present). -/
def demoHitA : Json :=
  Json.obj [(pys "title", Json.str (pys "Acme leadership")),
            (pys "link", Json.str (pys "https://acme.example/team")),
            (pys "snippet", Json.str (pys "Jane Doe is the CEO of Acme."))]

/-- A malformed hit with no `snippet` key: the formatter must skip it. -/
def demoHitBad : Json :=
  Json.obj [(pys "title", Json.str (pys "No snippet here")),
            (pys "link", Json.str (pys "https://acme.example/other"))]

/-- A search result with six hits, the second of which is incomplete. -/
def demoResult : Json :=
  Json.obj [(pys "searchParameters",
             Json.obj [(pys "q", Json.str (pys "acme.example Acme CEO"))]),
            (pys "organic",
             Json.arr [demoHitA, demoHitBad, demoHitA, demoHitA, demoHitA, demoHitA])]

def demoResults : List Json := [demoResult, serperFallback (pys "acme.example Acme partner")]

/-- Fifteen identical companies, to exercise the 14-then-1 chunking. -/
def demoCompanies : List (PyStr × PyStr) :=
  List.replicate 15 (pys "acme.example", pys "Acme")

/-- An LLM reply that already contains the two Clint Dorman records of the
dedup scenario (`\x7b` and `\x7d` are the brace code points). -/
def replyBoth : PyStr :=
  pys "[\x7b\"first_name\": \"Clint\", \"last_name\": \"Dorman\", \"title\": \"VP Finance\"\x7d, \x7b\"first_name\": \"Clint\", \"last_name\": \"Dorman\", \"title\": \"VP of Finance and Operations\"\x7d]"

/-- An LLM reply in which the model itself merged the two records, keeping the
longer title. -/
def replyMerged : PyStr :=
  pys "[\x7b\"first_name\": \"Clint\", \"last_name\": \"Dorman\", \"title\": \"VP of Finance and Operations\"\x7d]"

/-! ### Helper lemmas -/

theorem foldl_snoc_map (g : α → β) (l : List α) (acc : List β) :
    l.foldl (fun a x => a ++ [g x]) acc = acc ++ l.map g := by
  induction l generalizing acc with
  | nil => simp
  | cons x xs ih => simp [ih]

theorem foldl_snoc_filter_map (p : α → Bool) (g : α → β) (l : List α) (acc : List β) :
    l.foldl (fun a x => if p x then a ++ [g x] else a) acc
      = acc ++ (l.filter p).map g := by
  induction l generalizing acc with
  | nil => simp
  | cons x xs ih =>
    cases h : p x <;> simp [List.filter_cons, h, ih]

theorem dictFind_dictSet_self (fs : List (PyStr × Json)) (k : PyStr) (v : Json) :
    dictFind (dictSet fs k v) k = some v := by
  induction fs with
  | nil => simp [dictSet, dictFind]
  | cons p t ih =>
    obtain ⟨k2, v2⟩ := p
    simp only [dictSet]
    by_cases h : k2 = k
    · simp [h, dictFind]
    · simp [h, dictFind, ih]

theorem dictFind_dictSet_other (fs : List (PyStr × Json)) (k k2 : PyStr) (v : Json)
    (h : k2 ≠ k) : dictFind (dictSet fs k v) k2 = dictFind fs k2 := by
  induction fs with
  | nil => simp [dictSet, dictFind, Ne.symm h]
  | cons p t ih =>
    obtain ⟨k3, v3⟩ := p
    simp only [dictSet]
    by_cases h3 : k3 = k
    · subst h3
      simp [dictFind, Ne.symm h]
    · rw [if_neg h3]
      simp only [dictFind]
      rw [ih]

theorem dictContains_dictSet_other (fs : List (PyStr × Json)) (k k2 : PyStr) (v : Json)
    (h : k2 ≠ k) : dictContains (dictSet fs k v) k2 = dictContains fs k2 := by
  simp [dictContains, dictFind_dictSet_other fs k k2 v h]

theorem linesC_ne_nil (s : PyStr) : linesC s ≠ [] := by
  cases s with
  | nil => simp [linesC]
  | cons c cs =>
    simp only [linesC]
    split
    · simp
    · split <;> simp

theorem linesC_append_nl (xs ys : PyStr) :
    linesC (xs ++ '\n' :: ys) = linesC xs ++ linesC ys := by
  induction xs with
  | nil => simp [linesC]
  | cons c cs ih =>
    by_cases h : c = '\n'
    · subst h
      simp only [List.cons_append, linesC, if_pos rfl]
      simp [ih]
    · simp only [List.cons_append, linesC, if_neg h]
      have hne := linesC_ne_nil cs
      cases hcs : linesC cs with
      | nil => exact absurd hcs hne
      | cons l ls =>
        simp only [List.append_eq, ih, hcs]
        simp

theorem linesC_of_not_mem (xs : PyStr) (h : '\n' ∉ xs) : linesC xs = [xs] := by
  induction xs with
  | nil => simp [linesC]
  | cons c cs ih =>
    simp only [List.mem_cons, not_or] at h
    have hcne : ¬ (c = '\n') := fun hc => h.1 (by rw [hc])
    simp only [linesC, if_neg hcne, ih h.2]

theorem pyIn_iff (sub s : PyStr) : pyIn sub s = true ↔ sub <:+: s := by
  simp [pyIn]

theorem noNl_iff (s : PyStr) : noNl s = true ↔ '\n' ∉ s := by
  simp [noNl]

theorem pyStrip_infix_self (s : PyStr) : pyStrip s <:+: s := by
  unfold pyStrip
  have h1 : s.dropWhile isPySpace <:+ s := List.dropWhile_suffix _
  have h3 : (s.dropWhile isPySpace).reverse.dropWhile isPySpace
      <:+ (s.dropWhile isPySpace).reverse := List.dropWhile_suffix isPySpace
  have h2 : ((s.dropWhile isPySpace).reverse.dropWhile isPySpace).reverse
      <+: s.dropWhile isPySpace := by
    have h5 : ((s.dropWhile isPySpace).reverse.dropWhile isPySpace).reverse
        <+: (s.dropWhile isPySpace).reverse.reverse := List.reverse_prefix.mpr h3
    rwa [List.reverse_reverse] at h5
  exact h2.isInfix.trans h1.isInfix

theorem infix_dropWhile_of_noSpace {p : Char → Bool} {t : PyStr}
    (hne : t ≠ []) (hsp : ∀ c ∈ t, p c = false) :
    ∀ {l : PyStr}, t <:+: l → t <:+: l.dropWhile p := by
  intro l
  induction l with
  | nil => intro h; rw [List.infix_nil] at h; exact absurd h hne
  | cons a l ih =>
    intro h
    rcases List.infix_cons_iff.mp h with hpre | hinf
    · cases t with
      | nil => exact absurd rfl hne
      | cons b t2 =>
        obtain ⟨hb, -⟩ := List.cons_prefix_cons.mp hpre
        have hpa : p a = false := hb ▸ hsp b (by simp)
        rw [List.dropWhile_cons, if_neg (by simp [hpa])]
        exact h
    · rw [List.dropWhile_cons]
      by_cases hpa : p a = true
      · rw [if_pos hpa]
        exact ih hinf
      · rw [if_neg hpa]
        exact List.infix_cons hinf

theorem infix_pyStrip_of_noSpace {t s : PyStr}
    (hne : t ≠ []) (hsp : ∀ c ∈ t, isPySpace c = false) (h : t <:+: s) :
    t <:+: pyStrip s := by
  unfold pyStrip
  have h1 : t <:+: s.dropWhile isPySpace := infix_dropWhile_of_noSpace hne hsp h
  have h2 : t.reverse <:+: (s.dropWhile isPySpace).reverse := List.reverse_infix.mpr h1
  have h3 : t.reverse <:+: (s.dropWhile isPySpace).reverse.dropWhile isPySpace :=
    infix_dropWhile_of_noSpace (by simpa using hne)
      (fun c hc => hsp c (List.mem_reverse.mp hc)) h2
  have h4 : t.reverse <:+: (((s.dropWhile isPySpace).reverse.dropWhile isPySpace).reverse).reverse := by
    rwa [List.reverse_reverse]
  exact List.reverse_infix.mp h4

theorem pyLoopMap_ok (f : α → Except Unit β) (g : α → β) (l : List α)
    (h : ∀ x ∈ l, f x = .ok (g x)) :
    pyLoopMap f l = .ok (l.map g) := by
  induction l with
  | nil => simp [pyLoopMap]
  | cons x xs ih =>
    simp only [pyLoopMap, h x (by simp), ih (fun y hy => h y (by simp [hy]))]
    simp

theorem chunksAux_flatten {n : Nat} (hn : 0 < n) (fuel : Nat) :
    ∀ l : List α, l.length ≤ fuel → (chunksAux n fuel l).flatten = l := by
  induction fuel with
  | zero =>
    intro l hl
    have hnil : l = [] := List.length_eq_zero.mp (Nat.le_zero.mp hl)
    subst hnil
    simp [chunksAux]
  | succ fuel ih =>
    intro l hl
    cases l with
    | nil => simp [chunksAux]
    | cons x xs =>
      simp only [chunksAux, List.flatten_cons]
      rw [ih _ (by simp only [List.length_drop]; omega)]
      exact List.take_append_drop n (x :: xs)

theorem chunksAux_mem {n : Nat} (hn : 0 < n) (fuel : Nat) :
    ∀ (l : List α) b, l.length ≤ fuel → b ∈ chunksAux n fuel l →
      b ≠ [] ∧ b.length ≤ n := by
  induction fuel with
  | zero =>
    intro l b hl hb
    have hnil : l = [] := List.length_eq_zero.mp (Nat.le_zero.mp hl)
    subst hnil
    simp [chunksAux] at hb
  | succ fuel ih =>
    intro l b hl hb
    cases l with
    | nil => simp [chunksAux] at hb
    | cons x xs =>
      simp only [chunksAux, List.mem_cons] at hb
      rcases hb with rfl | hb
      · constructor
        · simp [List.take_eq_nil_iff]
          omega
        · simp only [List.length_take]
          exact Nat.min_le_left _ _
      · exact ih _ b (by simp only [List.length_drop]; omega) hb

theorem chunksAux_full {n : Nat} (hn : 0 < n) (fuel : Nat) :
    ∀ (l : List α) i, l.length ≤ fuel → i + 1 < (chunksAux n fuel l).length →
      ((chunksAux n fuel l).getD i []).length = n := by
  induction fuel with
  | zero =>
    intro l i hl hi
    have hnil : l = [] := List.length_eq_zero.mp (Nat.le_zero.mp hl)
    subst hnil
    simp [chunksAux] at hi
  | succ fuel ih =>
    intro l i hl hi
    cases l with
    | nil => simp [chunksAux] at hi
    | cons x xs =>
      simp only [chunksAux] at hi ⊢
      cases i with
      | zero =>
        have hrest : chunksAux n fuel ((x :: xs).drop n) ≠ [] := by
          intro hh
          rw [hh] at hi
          simp at hi
        have hdrop : (x :: xs).drop n ≠ [] := by
          intro hh
          rw [hh] at hrest
          cases fuel <;> simp [chunksAux] at hrest
        have hlen : n < xs.length + 1 := by
          by_contra hc
          exact hdrop (List.drop_eq_nil_of_le (by simp only [List.length_cons]; omega))
        simp only [List.getD_cons_zero, List.length_take, List.length_cons]
        omega
      | succ j =>
        simp only [List.getD_cons_succ]
        exact ih _ j (by simp only [List.length_drop]; omega) (by simpa using hi)

theorem process_batch_ok (llm : PyStr → LlmNet) (serper : PyStr → SerperNet)
    (b : List (PyStr × PyStr)) (f : PyStr × PyStr → List Json)
    (h : ∀ c ∈ b, process_company llm serper c.1 c.2 = Except.ok (f c)) :
    process_batch llm serper b = Except.ok ((b.map f).flatten) := by
  unfold process_batch
  rw [pyLoopMap_ok _ f b h]

theorem runChunks_ok (llm : PyStr → LlmNet) (serper : PyStr → SerperNet)
    (g : PyStr × PyStr → List Json) :
    ∀ (bs : List (List (PyStr × PyStr))) (acc : List Json),
      (∀ b ∈ bs, ∀ c ∈ b, process_company llm serper c.1 c.2 = Except.ok (g c)) →
      runChunks llm serper bs acc = Except.ok (acc ++ (bs.flatten.map g).flatten) := by
  intro bs
  induction bs with
  | nil => intro acc h; simp [runChunks]
  | cons b bs ih =>
    intro acc h
    have h1 := process_batch_ok llm serper b g (h b (by simp))
    have h2 := ih (acc ++ (b.map g).flatten)
      (fun b2 hb2 c hc => h b2 (by simp [hb2]) c hc)
    simp only [runChunks, h1, h2]
    simp [List.map_append, List.flatten_append, List.append_assoc]

theorem isHeaderLine_nil : isHeaderLine [] = false := by decide

theorem isHeaderLine_cons (c : Char) (t : PyStr) (h : c ≠ '*') :
    isHeaderLine (c :: t) = false := by
  unfold isHeaderLine
  rw [show pys "**Search Query:** " = '*' :: pys "*Search Query:** " from rfl]
  simp [List.isPrefixOf, Ne.symm h]

theorem isHeaderLine_header (q : PyStr) :
    isHeaderLine (pys "**Search Query:** " ++ q) = true := by
  unfold isHeaderLine
  rw [List.isPrefixOf_iff_prefix]
  exact List.prefix_append _ _

theorem formattedResultsOf_eq (organic : List Json) :
    formattedResultsOf organic
      = (((organic.take 4).filter hitComplete).map renderHit) := by
  unfold formattedResultsOf
  rw [foldl_snoc_filter_map]
  simp

theorem formattedResultsOf_len (organic : List Json) :
    (formattedResultsOf organic).length ≤ 4 := by
  rw [formattedResultsOf_eq]
  calc (((organic.take 4).filter hitComplete).map renderHit).length
      = ((organic.take 4).filter hitComplete).length := List.length_map _ _
    _ ≤ (organic.take 4).length := List.length_filter_le _ _
    _ ≤ 4 := List.length_take_le _ _

theorem format_search_results_eq (results : List Json) :
    format_search_results results = pyJoin (pys "\n\n\n") (results.map sectionOf) := by
  unfold format_search_results
  rw [foldl_snoc_map]
  simp

theorem linesC_nl_cons (X : PyStr) : linesC ('\n' :: X) = [] :: linesC X := by
  simp [linesC]

theorem linesC_renderHit (item : Json)
    (h1 : noNl (pyFStr (getJD item (pys "title"))) = true)
    (h2 : noNl (pyFStr (getJD item (pys "link"))) = true)
    (h3 : noNl (pyFStr (getJD item (pys "snippet"))) = true) :
    linesC (renderHit item)
      = [pys "- " ++ pyFStr (getJD item (pys "title")),
         pys "  " ++ pyFStr (getJD item (pys "link")),
         pys "  " ++ pyFStr (getJD item (pys "snippet"))] := by
  rw [noNl_iff] at h1 h2 h3
  have e : renderHit item
      = (pys "- " ++ pyFStr (getJD item (pys "title")))
          ++ '\n' :: ((pys "  " ++ pyFStr (getJD item (pys "link")))
          ++ '\n' :: (pys "  " ++ pyFStr (getJD item (pys "snippet")))) := by
    unfold renderHit
    rw [show pys "\n  " = '\n' :: pys "  " from rfl]
    simp [List.append_assoc]
  have m1 : '\n' ∉ pys "- " ++ pyFStr (getJD item (pys "title")) := by
    intro hm
    rcases List.mem_append.mp hm with hm | hm
    · exact absurd hm (by decide)
    · exact h1 hm
  have m2 : '\n' ∉ pys "  " ++ pyFStr (getJD item (pys "link")) := by
    intro hm
    rcases List.mem_append.mp hm with hm | hm
    · exact absurd hm (by decide)
    · exact h2 hm
  have m3 : '\n' ∉ pys "  " ++ pyFStr (getJD item (pys "snippet")) := by
    intro hm
    rcases List.mem_append.mp hm with hm | hm
    · exact absurd hm (by decide)
    · exact h3 hm
  rw [e, linesC_append_nl, linesC_append_nl,
      linesC_of_not_mem _ m1, linesC_of_not_mem _ m2, linesC_of_not_mem _ m3]
  rfl

theorem linesC_hits_block (rs : List PyStr)
    (h : ∀ r ∈ rs, ∀ l ∈ linesC r, isHeaderLine l = false) :
    ∀ l ∈ linesC (pyJoin (pys "\n---\n") rs), isHeaderLine l = false := by
  induction rs with
  | nil =>
    intro l hl
    simp [pyJoin, linesC] at hl
    subst hl
    exact isHeaderLine_nil
  | cons r rs ih =>
    cases rs with
    | nil =>
      intro l hl
      exact h r (by simp) l (by simpa [pyJoin] using hl)
    | cons r2 rs2 =>
      intro l hl
      have e : pyJoin (pys "\n---\n") (r :: r2 :: rs2)
          = r ++ '\n' :: (pys "---" ++ '\n' :: pyJoin (pys "\n---\n") (r2 :: rs2)) := by
        rw [pyJoin]
        rw [show pys "\n---\n" = '\n' :: (pys "---" ++ ['\n']) from rfl]
        simp [List.append_assoc]
      rw [e, linesC_append_nl] at hl
      rcases List.mem_append.mp hl with hl | hl
      · exact h r (by simp) l hl
      · rw [linesC_append_nl] at hl
        rcases List.mem_append.mp hl with hl | hl
        · rw [linesC_of_not_mem _ (by decide)] at hl
          simp at hl
          subst hl
          exact isHeaderLine_cons _ _ (by decide)
        · exact ih (fun r3 hr3 => h r3 (by simp [hr3])) l hl

theorem wfResult_query {r : Json} (hwf : wfResult r = true) :
    '\n' ∉ pyFStr (queryValOf r) := by
  unfold wfResult at hwf
  rw [Bool.and_eq_true] at hwf
  exact (noNl_iff _).mp hwf.1

theorem wfResult_hits {r : Json} (hwf : wfResult r = true) :
    ∀ item ∈ (organicOf r).take 4, hitComplete item = true →
      noNl (pyFStr (getJD item (pys "title"))) = true
      ∧ noNl (pyFStr (getJD item (pys "link"))) = true
      ∧ noNl (pyFStr (getJD item (pys "snippet"))) = true := by
  unfold wfResult at hwf
  rw [Bool.and_eq_true, List.all_eq_true] at hwf
  intro item hitem hc
  have h2 := hwf.2 item hitem
  rw [hc] at h2
  simpa [and_assoc] using h2

theorem sectionOf_hit_lines (r : Json) (hwf : wfResult r = true) :
    ∀ s ∈ formattedResultsOf (organicOf r), ∀ l ∈ linesC s, isHeaderLine l = false := by
  intro s hs
  rw [formattedResultsOf_eq] at hs
  rcases List.mem_map.mp hs with ⟨item, hitem, rfl⟩
  have hmemf := List.mem_filter.mp hitem
  have hfields := wfResult_hits hwf item hmemf.1 hmemf.2
  rw [linesC_renderHit item hfields.1 hfields.2.1 hfields.2.2]
  intro l hl
  simp only [List.mem_cons, List.not_mem_nil, or_false] at hl
  rcases hl with rfl | rfl | rfl
  · rw [show pys "- " ++ pyFStr (getJD item (pys "title"))
        = '-' :: (' ' :: pyFStr (getJD item (pys "title"))) from rfl]
    exact isHeaderLine_cons _ _ (by decide)
  · rw [show pys "  " ++ pyFStr (getJD item (pys "link"))
        = ' ' :: (' ' :: pyFStr (getJD item (pys "link"))) from rfl]
    exact isHeaderLine_cons _ _ (by decide)
  · rw [show pys "  " ++ pyFStr (getJD item (pys "snippet"))
        = ' ' :: (' ' :: pyFStr (getJD item (pys "snippet"))) from rfl]
    exact isHeaderLine_cons _ _ (by decide)

theorem filter_linesC_sectionOf (r : Json) (hwf : wfResult r = true) :
    (linesC (sectionOf r)).filter isHeaderLine
      = [pys "**Search Query:** " ++ pyFStr (queryValOf r)] := by
  have e : sectionOf r
      = (pys "**Search Query:** " ++ pyFStr (queryValOf r))
          ++ '\n' :: ('\n' :: pyJoin (pys "\n---\n") (formattedResultsOf (organicOf r))) := by
    unfold sectionOf
    rw [show pys "\n\n" = '\n' :: ['\n'] from rfl]
    simp [List.append_assoc]
  have hq := wfResult_query hwf
  rw [e, linesC_append_nl,
      linesC_of_not_mem _ (by
        intro hm
        rcases List.mem_append.mp hm with hm | hm
        · exact absurd hm (by decide)
        · exact hq hm),
      linesC_nl_cons]
  rw [List.filter_append]
  have hblock := linesC_hits_block _ (sectionOf_hit_lines r hwf)
  have hnil : (linesC (pyJoin (pys "\n---\n") (formattedResultsOf (organicOf r)))).filter
      isHeaderLine = [] := by
    rw [List.filter_eq_nil_iff]
    intro l hl
    simp [hblock l hl]
  simp [List.filter_cons, isHeaderLine_header, isHeaderLine_nil, hnil]

theorem filter_linesC_sections : ∀ (results : List Json),
    (∀ r ∈ results, wfResult r = true) →
    (linesC (pyJoin (pys "\n\n\n") (results.map sectionOf))).filter isHeaderLine
      = results.map (fun r => pys "**Search Query:** " ++ pyFStr (queryValOf r)) := by
  intro results
  induction results with
  | nil =>
    intro _
    simp [pyJoin, linesC, isHeaderLine_nil]
  | cons r rs ih =>
    intro hwf
    cases rs with
    | nil =>
      simp only [List.map_cons, List.map_nil, pyJoin]
      rw [filter_linesC_sectionOf r (hwf r (by simp))]
    | cons r2 rs2 =>
      have e : pyJoin (pys "\n\n\n") ((r :: r2 :: rs2).map sectionOf)
          = sectionOf r
              ++ '\n' :: ('\n' :: ('\n' ::
                  pyJoin (pys "\n\n\n") ((r2 :: rs2).map sectionOf))) := by
        simp only [List.map_cons]
        rw [pyJoin]
        rw [show pys "\n\n\n" = '\n' :: ('\n' :: ['\n']) from rfl]
        simp [List.append_assoc]
      rw [e, linesC_append_nl, linesC_nl_cons, linesC_nl_cons, List.filter_append]
      rw [filter_linesC_sectionOf r (hwf r (by simp))]
      have ih2 := ih (fun r3 hr3 => hwf r3 (by simp [hr3]))
      rw [List.filter_cons_of_neg (by simp [isHeaderLine_nil]),
          List.filter_cons_of_neg (by simp [isHeaderLine_nil]), ih2]
      simp

theorem fmt_q1 (d c : PyStr) :
    pyFormatDM d c (pys "{domain} {company_name} CEO -zoominfo -dnb")
      = d ++ ' ' :: (c ++ pys " CEO -zoominfo -dnb") := rfl

theorem fmt_q2 (d c : PyStr) :
    pyFormatDM d c (pys "{domain} {company_name} Founder owner -zoominfo -dnb")
      = d ++ ' ' :: (c ++ pys " Founder owner -zoominfo -dnb") := rfl

theorem fmt_q3 (d c : PyStr) :
    pyFormatDM d c (pys "{domain} {company_name} president chairman -zoominfo -dnb")
      = d ++ ' ' :: (c ++ pys " president chairman -zoominfo -dnb") := rfl

theorem fmt_q4 (d c : PyStr) :
    pyFormatDM d c (pys "{domain} {company_name} partner -zoominfo -dnb")
      = d ++ ' ' :: (c ++ pys " partner -zoominfo -dnb") := rfl

theorem fmt_q5 (d c : PyStr) :
    pyFormatDM d c (pys "{domain} {company_name} contact email")
      = d ++ ' ' :: (c ++ pys " contact email") := rfl

theorem validate_result_strip (v : Json) (h : validate_linkedin_url v ≠ []) :
    ∃ s, v = Json.str s ∧ validate_linkedin_url v = pyStrip s := by
  cases v with
  | str s =>
    refine ⟨s, rfl, ?_⟩
    by_cases h1 : s = []
    · exact absurd (by simp [validate_linkedin_url, h1]) h
    · by_cases h2 : (pys "linkedin.com/in/") <:+: pyStrip s
      · by_cases h3 : linkedinDisallowed.any (fun d => pyIn d (pyStrip s)) = true
        · exact absurd (by simp [validate_linkedin_url, h1, h2, h3]) h
        · simp [validate_linkedin_url, h1, h2, h3]
      · exact absurd (by simp [validate_linkedin_url, h1, h2]) h
  | null => exact absurd rfl h
  | bool b => exact absurd rfl h
  | num m e => exact absurd rfl h
  | arr xs => exact absurd rfl h
  | obj fs => exact absurd rfl h

theorem normalize_contact_fields (fs : List (PyStr × Json)) (domain company_name : PyStr) :
    ∃ fs4, normalize_contact domain company_name (Json.obj fs) = Except.ok (Json.obj fs4)
      ∧ dictFind fs4 (pys "domain") = some (Json.str domain)
      ∧ dictFind fs4 (pys "company_name") = some (Json.str company_name)
      ∧ dictFind fs4 (pys "linkedin_url")
          = some (Json.str (validate_linkedin_url
              (dictFindD fs (pys "linkedin_url") (Json.str []))))
      ∧ dictFind fs4 (pys "generic_email")
          = some ((dictFind fs (pys "generic_email")).getD (Json.str []))
      ∧ ∀ k, k ≠ pys "domain" → k ≠ pys "company_name" → k ≠ pys "linkedin_url" →
          k ≠ pys "generic_email" → dictFind fs4 k = dictFind fs k := by
  simp only [normalize_contact]
  set fs1 := dictSet fs (pys "domain") (Json.str domain) with hfs1
  set fs2 := dictSet fs1 (pys "company_name") (Json.str company_name) with hfs2
  set fs3 := dictSet fs2 (pys "linkedin_url")
    (Json.str (validate_linkedin_url (dictFindD fs2 (pys "linkedin_url") (Json.str [])))) with hfs3
  have hluval : dictFindD fs2 (pys "linkedin_url") (Json.str [])
      = dictFindD fs (pys "linkedin_url") (Json.str []) := by
    unfold dictFindD
    rw [hfs2, dictFind_dictSet_other _ _ _ _ (by decide),
        hfs1, dictFind_dictSet_other _ _ _ _ (by decide)]
  have hd3 : dictFind fs3 (pys "domain") = some (Json.str domain) := by
    rw [hfs3, dictFind_dictSet_other _ _ _ _ (by decide),
        hfs2, dictFind_dictSet_other _ _ _ _ (by decide),
        hfs1, dictFind_dictSet_self]
  have hc3 : dictFind fs3 (pys "company_name") = some (Json.str company_name) := by
    rw [hfs3, dictFind_dictSet_other _ _ _ _ (by decide),
        hfs2, dictFind_dictSet_self]
  have hl3 : dictFind fs3 (pys "linkedin_url")
      = some (Json.str (validate_linkedin_url
          (dictFindD fs (pys "linkedin_url") (Json.str [])))) := by
    rw [hfs3, dictFind_dictSet_self, hluval]
  have hg3 : dictFind fs3 (pys "generic_email") = dictFind fs (pys "generic_email") := by
    rw [hfs3, dictFind_dictSet_other _ _ _ _ (by decide),
        hfs2, dictFind_dictSet_other _ _ _ _ (by decide),
        hfs1, dictFind_dictSet_other _ _ _ _ (by decide)]
  have hge3 : dictContains fs3 (pys "generic_email") = dictContains fs (pys "generic_email") := by
    simp [dictContains, hg3]
  have hother3 : ∀ k, k ≠ pys "domain" → k ≠ pys "company_name" → k ≠ pys "linkedin_url" →
      dictFind fs3 k = dictFind fs k := by
    intro k hk1 hk2 hk3
    rw [hfs3, dictFind_dictSet_other _ _ _ _ hk3,
        hfs2, dictFind_dictSet_other _ _ _ _ hk2,
        hfs1, dictFind_dictSet_other _ _ _ _ hk1]
  refine ⟨_, rfl, ?_, ?_, ?_, ?_, ?_⟩
  · by_cases hge : dictContains fs (pys "generic_email")
    · rw [if_pos (by rw [hge3]; exact hge)]
      exact hd3
    · rw [if_neg (by rw [hge3]; exact hge)]
      rw [dictFind_dictSet_other _ _ _ _ (by decide)]
      exact hd3
  · by_cases hge : dictContains fs (pys "generic_email")
    · rw [if_pos (by rw [hge3]; exact hge)]
      exact hc3
    · rw [if_neg (by rw [hge3]; exact hge)]
      rw [dictFind_dictSet_other _ _ _ _ (by decide)]
      exact hc3
  · by_cases hge : dictContains fs (pys "generic_email")
    · rw [if_pos (by rw [hge3]; exact hge)]
      exact hl3
    · rw [if_neg (by rw [hge3]; exact hge)]
      rw [dictFind_dictSet_other _ _ _ _ (by decide)]
      exact hl3
  · by_cases hge : dictContains fs (pys "generic_email")
    · rw [if_pos (by rw [hge3]; exact hge)]
      rw [hg3]
      unfold dictContains at hge
      obtain ⟨v, hv⟩ := Option.isSome_iff_exists.mp hge
      rw [hv]
      rfl
    · rw [if_neg (by rw [hge3]; exact hge)]
      rw [dictFind_dictSet_self]
      unfold dictContains at hge
      rw [Option.not_isSome_iff_eq_none.mp hge]
      rfl
  · intro k hk1 hk2 hk3 hk4
    by_cases hge : dictContains fs (pys "generic_email")
    · rw [if_pos (by rw [hge3]; exact hge)]
      exact hother3 k hk1 hk2 hk3
    · rw [if_neg (by rw [hge3]; exact hge)]
      rw [dictFind_dictSet_other _ _ _ _ hk4]
      exact hother3 k hk1 hk2 hk3

/-! ### Claim theorems -/

/-- Claim C1: the Contact Extractor's response handling strips a ```json-tagged
fence when that marker occurs, otherwise a bare ``` fence when that marker
occurs (`stripFences`), then parses the remainder as JSON; a parse failure
yields the empty contact sequence (no exception: the function is total), a
parsed non-array value also yields the empty sequence, a parsed array yields
its elements, and the reply `` ```json\n[]\n``` `` yields the empty list. -/
theorem c1_fence_stripping (content : PyStr) :
    (parseJson (stripFences content) = none → extract_response_contacts content = [])
  ∧ (∀ v, parseJson (stripFences content) = some v → (∀ xs, v ≠ Json.arr xs) →
      extract_response_contacts content = [])
  ∧ (∀ xs, parseJson (stripFences content) = some (Json.arr xs) →
      extract_response_contacts content = xs)
  ∧ extract_response_contacts (pys "```json\n[]\n```") = [] := by
  refine ⟨?_, ?_, ?_, rfl⟩
  · intro h
    unfold extract_response_contacts
    rw [h]
  · intro v hv hne
    unfold extract_response_contacts
    rw [hv]
    cases v with
    | arr xs => exact absurd rfl (hne xs)
    | null => rfl
    | bool b => rfl
    | num m e => rfl
    | str s => rfl
    | obj fs => rfl
  · intro xs h
    unfold extract_response_contacts
    rw [h]

theorem c1_fence_stripping_witness :
    extract_response_contacts (pys "Sorry, I could not find any contacts.") = [] :=
  (c1_fence_stripping (pys "Sorry, I could not find any contacts.")).1 rfl

/-- Claim C2: `search_serper` never raises — on a non-200 status (or a raised
transport error, or a 200 body that fails to parse) it returns the fallback
payload, whose hit list is empty and whose `searchParameters.q` is the
original query, so the formatter still emits a header for that query with
zero hits. -/
theorem c2_search_fail_soft (q : PyStr) (net : SerperNet)
    (h : ∀ b, net ≠ SerperNet.resp 200 (some b)) :
    search_serper q net = serperFallback q
  ∧ organicOf (search_serper q net) = []
  ∧ queryValOf (search_serper q net) = Json.str q
  ∧ format_search_results [search_serper q net]
      = pys "**Search Query:** " ++ q ++ pys "\n\n" := by
  have hf : search_serper q net = serperFallback q := by
    cases net with
    | raised => rfl
    | resp status body =>
      unfold search_serper
      split
      · rename_i heq
        exact absurd rfl (heq ▸ h _)
      · rfl
      · rfl
      · rfl
  refine ⟨hf, ?_, ?_, ?_⟩
  · rw [hf]
    rfl
  · rw [hf]
    rfl
  · rw [hf, format_search_results_eq]
    simp only [List.map_cons, List.map_nil, pyJoin]
    unfold sectionOf
    rw [show queryValOf (serperFallback q) = Json.str q from rfl,
        show formattedResultsOf (organicOf (serperFallback q)) = [] from rfl,
        show pyFStr (Json.str q) = q from rfl,
        show pyJoin (pys "\n---\n") ([] : List PyStr) = [] from rfl,
        List.append_nil]

theorem c2_search_fail_soft_witness :
    search_serper (pys "acme.example Acme CEO -zoominfo -dnb") SerperNet.raised
      = serperFallback (pys "acme.example Acme CEO -zoominfo -dnb")
  ∧ format_search_results
      [search_serper (pys "acme.example Acme CEO -zoominfo -dnb") SerperNet.raised]
      = pys "**Search Query:** " ++ pys "acme.example Acme CEO -zoominfo -dnb"
          ++ pys "\n\n" := by
  have h := c2_search_fail_soft (pys "acme.example Acme CEO -zoominfo -dnb")
    SerperNet.raised (fun b hb => SerperNet.noConfusion hb)
  exact ⟨h.1, h.2.2.2⟩

/-- Claim C3 (code bug in the source): when the extraction reply is the JSON
array `[1]` — a list whose element is not an object — `extract_all_contacts`
returns that list unchanged, and the normalization loop of `process_company`
(`contact['domain'] = domain` on a non-dict) raises a `TypeError` which is not
caught: the model shows the exception escaping `process_company`,
`process_batch` (`asyncio.gather` re-raises) and the chunk loop of `run`, so
one malformed provider payload aborts the sibling company and the whole
batch, contrary to the propagation-policy claim. -/
theorem c3_nonobject_contact_aborts_run :
    extract_all_contacts (LlmNet.content (pys "[1]")) = [Json.num 1 0]
  ∧ process_company (fun _ => LlmNet.content (pys "[1]")) (fun _ => SerperNet.raised)
      (pys "acme.example") (pys "Acme") = Except.error ()
  ∧ process_batch (fun _ => LlmNet.content (pys "[1]")) (fun _ => SerperNet.raised)
      [(pys "acme.example", pys "Acme"), (pys "beta.example", pys "Beta")]
      = Except.error ()
  ∧ runModel (fun _ => LlmNet.content (pys "[1]")) (fun _ => SerperNet.raised)
      [(pys "acme.example", pys "Acme"), (pys "beta.example", pys "Beta")]
      = Except.error () :=
  ⟨rfl, rfl, rfl, rfl⟩

/-- Claim C4: the LinkedIn validation predicate gives a non-empty result
exactly for non-empty strings that contain the personal-profile substring and
none of the disallowed path substrings; it accepts the sample profile URL and
rejects the company URL, the posts URL, the empty string and non-string
values. -/
theorem c4_linkedin_validator (v : Json) :
    (validate_linkedin_url v ≠ []
      ↔ ∃ s, v = Json.str s ∧ s ≠ []
          ∧ (pys "linkedin.com/in/") <:+: s
          ∧ ∀ d ∈ linkedinDisallowed, ¬ (d <:+: s))
  ∧ validate_linkedin_url (Json.str (pys "https://www.linkedin.com/in/jane-doe-123"))
      = pys "https://www.linkedin.com/in/jane-doe-123"
  ∧ validate_linkedin_url (Json.str (pys "https://www.linkedin.com/company/acme")) = []
  ∧ validate_linkedin_url (Json.str (pys "https://www.linkedin.com/posts/xyz")) = []
  ∧ validate_linkedin_url (Json.str []) = []
  ∧ validate_linkedin_url Json.null = [] := by
  refine ⟨⟨?_, ?_⟩, by decide, by decide, by decide, rfl, rfl⟩
  · intro h
    have hdl : ∀ d ∈ linkedinDisallowed, d ≠ [] ∧ ∀ c ∈ d, isPySpace c = false := by decide
    cases v with
    | str s =>
      by_cases h1 : s = []
      · exact absurd (by simp [validate_linkedin_url, h1]) h
      · by_cases h2 : (pys "linkedin.com/in/") <:+: pyStrip s
        · by_cases h3 : linkedinDisallowed.any (fun d => pyIn d (pyStrip s)) = true
          · exact absurd (by simp [validate_linkedin_url, h1, h2, h3]) h
          · refine ⟨s, rfl, h1, h2.trans (pyStrip_infix_self s), ?_⟩
            intro d hd hds
            apply h3
            rw [List.any_eq_true]
            exact ⟨d, hd, (pyIn_iff _ _).mpr
              (infix_pyStrip_of_noSpace (hdl d hd).1 (hdl d hd).2 hds)⟩
        · exact absurd (by simp [validate_linkedin_url, h1, h2]) h
    | null => exact absurd rfl h
    | bool b => exact absurd rfl h
    | num m e => exact absurd rfl h
    | arr xs => exact absurd rfl h
    | obj fs => exact absurd rfl h
  · rintro ⟨s, rfl, h1, h2, h3⟩
    have h2b : (pys "linkedin.com/in/") <:+: pyStrip s :=
      infix_pyStrip_of_noSpace (by decide) (by decide) h2
    have h3b : ¬ (linkedinDisallowed.any (fun d => pyIn d (pyStrip s)) = true) := by
      rw [List.any_eq_true]
      rintro ⟨d, hd, hdin⟩
      rw [pyIn_iff] at hdin
      exact h3 d hd (hdin.trans (pyStrip_infix_self s))
    have hne : pyStrip s ≠ [] := by
      intro hnil
      rw [hnil, List.infix_nil] at h2b
      exact absurd h2b (by decide)
    have hval : validate_linkedin_url (Json.str s) = pyStrip s := by
      simp [validate_linkedin_url, h1, h2b, h3b]
    rw [hval]
    exact hne

theorem c4_linkedin_validator_witness :
    validate_linkedin_url (Json.str (pys "profile: linkedin.com/in/jane-doe-123")) ≠ [] :=
  (c4_linkedin_validator (Json.str (pys "profile: linkedin.com/in/jane-doe-123"))).1.mpr
    ⟨pys "profile: linkedin.com/in/jane-doe-123", rfl, by decide, by decide, by decide⟩

/-- Claim C5: on newline-free provider data the Result Formatter's output has
exactly one `**Search Query:**` header line per input result, in input order
(the filtered line list equals the per-result header list); the output is the
triple-newline join of the per-result sections; each section renders exactly
the complete hits among the first four (hits missing title, link or snippet
are skipped), hence at most 4 hits, joined by `\n---\n` after the header. -/
theorem c5_result_formatter (results : List Json)
    (hwf : ∀ r ∈ results, wfResult r = true) :
    (linesC (format_search_results results)).filter isHeaderLine
        = results.map (fun r => pys "**Search Query:** " ++ pyFStr (queryValOf r))
  ∧ format_search_results results = pyJoin (pys "\n\n\n") (results.map sectionOf)
  ∧ ∀ r ∈ results,
      formattedResultsOf (organicOf r)
          = (((organicOf r).take 4).filter hitComplete).map renderHit
      ∧ (formattedResultsOf (organicOf r)).length ≤ 4
      ∧ sectionOf r
          = pys "**Search Query:** " ++ pyFStr (queryValOf r) ++ pys "\n\n"
              ++ pyJoin (pys "\n---\n") (formattedResultsOf (organicOf r)) := by
  refine ⟨?_, format_search_results_eq results, ?_⟩
  · rw [format_search_results_eq]
    exact filter_linesC_sections results hwf
  · intro r hr
    exact ⟨formattedResultsOf_eq _, formattedResultsOf_len _, rfl⟩

theorem c5_result_formatter_witness :
    (linesC (format_search_results demoResults)).filter isHeaderLine
      = demoResults.map (fun r => pys "**Search Query:** " ++ pyFStr (queryValOf r)) :=
  (c5_result_formatter demoResults (by decide)).1

/-- Claim C6: the Batch Scheduler's chunking partitions the company list into
consecutive nonempty chunks of at most 14 companies, every chunk except
possibly the last having exactly 14; a 15-company list yields chunks of sizes
14 then 1; and when every company pipeline succeeds the chunked sequential
run returns the per-company contact lists flattened in original input
order. -/
theorem c6_batch_scheduler (llm : PyStr → LlmNet) (serper : PyStr → SerperNet)
    (companies : List (PyStr × PyStr)) (f : PyStr × PyStr → List Json) :
    (chunksList 14 companies).flatten = companies
  ∧ (∀ b ∈ chunksList 14 companies, b ≠ [] ∧ b.length ≤ 14)
  ∧ (∀ i, i + 1 < (chunksList 14 companies).length →
      ((chunksList 14 companies).getD i []).length = 14)
  ∧ (companies.length = 15 → (chunksList 14 companies).map List.length = [14, 1])
  ∧ ((∀ c ∈ companies, process_company llm serper c.1 c.2 = Except.ok (f c)) →
      runModel llm serper companies = Except.ok ((companies.map f).flatten)) := by
  have hflat : (chunksAux 14 companies.length companies).flatten = companies :=
    chunksAux_flatten (by omega) _ _ le_rfl
  refine ⟨hflat, ?_, ?_, ?_, ?_⟩
  · intro b hb
    exact chunksAux_mem (by omega) _ _ b le_rfl hb
  · intro i hi
    exact chunksAux_full (by omega) _ _ i le_rfl hi
  · intro h15
    simp only [chunksList]
    obtain ⟨x, xs, rfl⟩ : ∃ x xs, companies = x :: xs := by
      cases companies with
      | nil => simp at h15
      | cons x xs => exact ⟨x, xs, rfl⟩
    rw [h15]
    have hd : ((x :: xs).drop 14).length = 1 := by
      simp only [List.length_drop]
      omega
    obtain ⟨y, hy⟩ := List.length_eq_one.mp hd
    rw [show (15 : Nat) = 14 + 1 from rfl]
    simp only [chunksAux]
    rw [hy]
    rw [show (14 : Nat) = 13 + 1 from rfl]
    simp only [chunksAux]
    simp only [List.map_cons, List.map_nil, List.length_take, List.length_cons,
      List.length_nil, h15]
    decide
  · intro h
    unfold runModel chunksList
    rw [runChunks_ok llm serper f _ []
        (fun b hb c hc => h c (by rw [← hflat]; exact List.mem_flatten.mpr ⟨b, hb, hc⟩))]
    rw [hflat]
    simp

theorem c6_batch_scheduler_witness :
    (chunksList 14 demoCompanies).map List.length = [14, 1]
  ∧ runModel (fun _ => LlmNet.raised) (fun _ => SerperNet.raised) demoCompanies
      = Except.ok ((demoCompanies.map (fun _ => ([] : List Json))).flatten) := by
  have h := c6_batch_scheduler (fun _ => LlmNet.raised) (fun _ => SerperNet.raised)
    demoCompanies (fun _ => ([] : List Json))
  refine ⟨h.2.2.2.1 (by decide), h.2.2.2.2 ?_⟩
  intro c hc
  have hc2 : c = (pys "acme.example", pys "Acme") := by
    simpa [demoCompanies, List.mem_replicate] using hc
  subst hc2
  rfl

/-- Claim C7: normalization of an extracted contact (a JSON object) never
fails and sets `domain` and `company_name` to the enclosing company's values
(overwriting any prior value), rewrites `linkedin_url` through the validation
predicate applied to the contact's prior value (default empty string),
gives `generic_email` its prior value or the empty string when the key was
absent, and leaves every other field unchanged. -/
theorem c7_contact_normalizer (fs : List (PyStr × Json)) (domain company_name : PyStr) :
    ∃ fs4, normalize_contact domain company_name (Json.obj fs) = Except.ok (Json.obj fs4)
      ∧ dictFind fs4 (pys "domain") = some (Json.str domain)
      ∧ dictFind fs4 (pys "company_name") = some (Json.str company_name)
      ∧ dictFind fs4 (pys "linkedin_url")
          = some (Json.str (validate_linkedin_url
              (dictFindD fs (pys "linkedin_url") (Json.str []))))
      ∧ dictFind fs4 (pys "generic_email")
          = some ((dictFind fs (pys "generic_email")).getD (Json.str []))
      ∧ ∀ k, k ∉ [pys "domain", pys "company_name", pys "linkedin_url", pys "generic_email"] →
          dictFind fs4 k = dictFind fs k := by
  obtain ⟨fs4, h0, h1, h2, h3, h4, h5⟩ := normalize_contact_fields fs domain company_name
  refine ⟨fs4, h0, h1, h2, h3, h4, ?_⟩
  intro k hk
  simp only [List.mem_cons, List.not_mem_nil, or_false, not_or] at hk
  exact h5 k hk.1 hk.2.1 hk.2.2.1 hk.2.2.2

theorem c7_contact_normalizer_witness :
    ∃ fs4, normalize_contact (pys "acme.example") (pys "Acme")
        (Json.obj [(pys "first_name", Json.str (pys "Jane"))]) = Except.ok (Json.obj fs4)
      ∧ dictFind fs4 (pys "domain") = some (Json.str (pys "acme.example"))
      ∧ dictFind fs4 (pys "company_name") = some (Json.str (pys "Acme"))
      ∧ dictFind fs4 (pys "linkedin_url")
          = some (Json.str (validate_linkedin_url
              (dictFindD [(pys "first_name", Json.str (pys "Jane"))]
                (pys "linkedin_url") (Json.str []))))
      ∧ dictFind fs4 (pys "generic_email")
          = some ((dictFind [(pys "first_name", Json.str (pys "Jane"))]
              (pys "generic_email")).getD (Json.str []))
      ∧ ∀ k, k ∉ [pys "domain", pys "company_name", pys "linkedin_url", pys "generic_email"] →
          dictFind fs4 k = dictFind [(pys "first_name", Json.str (pys "Jane"))] k :=
  c7_contact_normalizer [(pys "first_name", Json.str (pys "Jane"))]
    (pys "acme.example") (pys "Acme")

/-- Claim C8: the Query Generator produces exactly five query strings, and
each contains the company's domain and company name verbatim as substrings
(with no failure mode: the formatter is a total function). -/
theorem c8_query_generator (domain company_name : PyStr) :
    (search_queries.map (pyFormatDM domain company_name)).length = 5
  ∧ ∀ q ∈ search_queries.map (pyFormatDM domain company_name),
      domain <:+: q ∧ company_name <:+: q := by
  refine ⟨rfl, ?_⟩
  intro q hq
  have hinf : ∀ rest : PyStr,
      domain <:+: domain ++ ' ' :: (company_name ++ rest)
      ∧ company_name <:+: domain ++ ' ' :: (company_name ++ rest) := by
    intro rest
    constructor
    · exact (List.prefix_append _ _).isInfix
    · rw [show domain ++ ' ' :: (company_name ++ rest)
          = (domain ++ [' ']) ++ company_name ++ rest from by simp]
      exact List.infix_append _ _ _
  simp only [search_queries, List.map_cons, List.map_nil, List.mem_cons,
    List.not_mem_nil, or_false] at hq
  rcases hq with rfl | rfl | rfl | rfl | rfl
  · rw [fmt_q1]; exact hinf _
  · rw [fmt_q2]; exact hinf _
  · rw [fmt_q3]; exact hinf _
  · rw [fmt_q4]; exact hinf _
  · rw [fmt_q5]; exact hinf _

theorem c8_query_generator_witness :
    (search_queries.map (pyFormatDM (pys "acme.example") (pys "Acme"))).length = 5
  ∧ (pys "acme.example") <:+: pyFormatDM (pys "acme.example") (pys "Acme")
      (pys "{domain} {company_name} contact email")
  ∧ (pys "Acme") <:+: pyFormatDM (pys "acme.example") (pys "Acme")
      (pys "{domain} {company_name} contact email") := by
  have h := c8_query_generator (pys "acme.example") (pys "Acme")
  have hm : pyFormatDM (pys "acme.example") (pys "Acme")
      (pys "{domain} {company_name} contact email")
      ∈ search_queries.map (pyFormatDM (pys "acme.example") (pys "Acme")) := by
    simp [search_queries]
  exact ⟨h.1, (h.2 _ hm).1, (h.2 _ hm).2⟩

/-- Claim C9, counterexample: the program performs no merging of its own —
when the extraction reply already contains both Clint Dorman records, the
pipeline output contains two Clint Dorman records, not exactly one. -/
theorem c9_dedup_counterexample :
    countClintDorman (process_company (fun _ => LlmNet.content replyBoth)
        (fun _ => SerperNet.raised) (pys "acme.example") (pys "Acme")) = 2
  ∧ ¬ (countClintDorman (process_company (fun _ => LlmNet.content replyBoth)
        (fun _ => SerperNet.raised) (pys "acme.example") (pys "Acme")) = 1) := by
  have h2 : countClintDorman (process_company (fun _ => LlmNet.content replyBoth)
      (fun _ => SerperNet.raised) (pys "acme.example") (pys "Acme")) = 2 := rfl
  exact ⟨h2, by omega⟩

/-- Claim C9, amended: per-person dedup is delegated to the language model by
the prompt; the program passes the parsed reply through unchanged.  A reply
already containing both Clint Dorman records yields both (both titles
retained, in order); only when the model itself returns the single merged
record does the output contain exactly one Clint Dorman record, with the
longer title `VP of Finance and Operations`. -/
theorem c9_dedup_delegated_to_llm :
    titlesOf (process_company (fun _ => LlmNet.content replyBoth)
        (fun _ => SerperNet.raised) (pys "acme.example") (pys "Acme"))
      = [pys "VP Finance", pys "VP of Finance and Operations"]
  ∧ countClintDorman (process_company (fun _ => LlmNet.content replyBoth)
        (fun _ => SerperNet.raised) (pys "acme.example") (pys "Acme")) = 2
  ∧ countClintDorman (process_company (fun _ => LlmNet.content replyMerged)
        (fun _ => SerperNet.raised) (pys "acme.example") (pys "Acme")) = 1
  ∧ titlesOf (process_company (fun _ => LlmNet.content replyMerged)
        (fun _ => SerperNet.raised) (pys "acme.example") (pys "Acme"))
      = [pys "VP of Finance and Operations"] :=
  ⟨rfl, rfl, rfl, rfl⟩

/-- Claim C10: an accepted LinkedIn URL is returned in whitespace-trimmed
form (`pyStrip` of the input), not verbatim; consequently every non-empty
`linkedin_url` in normalized output is the trimmed form of the extracted
value, and an otherwise-valid URL surrounded by whitespace is accepted in
trimmed form rather than rejected or returned verbatim. -/
theorem c10_validator_trims :
    (∀ v : Json, validate_linkedin_url v ≠ [] →
      ∃ s, v = Json.str s ∧ validate_linkedin_url v = pyStrip s)
  ∧ (∀ fs fs4 domain company_name,
      normalize_contact domain company_name (Json.obj fs) = Except.ok (Json.obj fs4) →
      ∀ s, dictFind fs4 (pys "linkedin_url") = some (Json.str s) → s ≠ [] →
        ∃ s0, dictFindD fs (pys "linkedin_url") (Json.str []) = Json.str s0
          ∧ s = pyStrip s0)
  ∧ validate_linkedin_url
      (Json.str (pys "   https://www.linkedin.com/in/jane-doe-123   "))
      = pys "https://www.linkedin.com/in/jane-doe-123"
  ∧ validate_linkedin_url
      (Json.str (pys "   https://www.linkedin.com/in/jane-doe-123   "))
      ≠ pys "   https://www.linkedin.com/in/jane-doe-123   " := by
  refine ⟨validate_result_strip, ?_, by decide, by decide⟩
  intro fs fs4 domain company_name hnorm s hfind hne
  obtain ⟨fs4b, h0, h1, h2, h3, h4, h5⟩ := normalize_contact_fields fs domain company_name
  rw [hnorm] at h0
  have hfs : fs4 = fs4b := by
    injection h0 with hh
    injection hh with hg
  rw [hfs] at hfind
  rw [h3] at hfind
  have hs : validate_linkedin_url (dictFindD fs (pys "linkedin_url") (Json.str [])) = s := by
    injection hfind with hh
    injection hh with hg
  have hvne : validate_linkedin_url (dictFindD fs (pys "linkedin_url") (Json.str [])) ≠ [] := by
    rw [hs]
    exact hne
  obtain ⟨s0, hX, hstrip⟩ := validate_result_strip _ hvne
  exact ⟨s0, hX, by rw [← hs, hstrip]⟩

theorem c10_validator_trims_witness :
    ∃ s, Json.str (pys " https://www.linkedin.com/in/jane ") = Json.str s
      ∧ validate_linkedin_url (Json.str (pys " https://www.linkedin.com/in/jane "))
          = pyStrip s :=
  c10_validator_trims.1 (Json.str (pys " https://www.linkedin.com/in/jane ")) (by decide)
